import Mathlib

set_option maxRecDepth 100000

/-!
Shallow embedding of the document-stream partitioning and foreign-key
resolution engine of `intake_bluesky/mongo_layout1.py`.

Documents are modelled as structures carrying the fields the core logic
reads; Mongo identifiers are `Nat`.  The cursor provider is out of scope
(per the spec), so a `RunDB` holds the query results in the order the
sorted cursors return them.
-/

/-- Decidable equality for `Except`, so concrete runs of the embedded
operations can be settled by `decide`. -/
instance {ε α : Type} [DecidableEq ε] [DecidableEq α] :
    DecidableEq (Except ε α) := fun x y =>
  match x, y with
  | .ok a, .ok b =>
    if h : a = b then isTrue (by rw [h])
    else isFalse (by intro hc; cases hc; exact h rfl)
  | .ok _, .error _ => isFalse (by intro hc; cases hc)
  | .error _, .ok _ => isFalse (by intro hc; cases hc)
  | .error e, .error f =>
    if h : e = f then isTrue (by rw [h])
    else isFalse (by intro hc; cases hc; exact h rfl)

namespace Databroker

/-- A `datum` document: identified by `datum_id`, points to its owning
resource via the `resource` foreign key. -/
structure Datum where
  datum_id : Nat
  resource : Nat
deriving DecidableEq

/-- A `resource` document, identified by `uid`. -/
structure Resource where
  uid : Nat
deriving DecidableEq

/-- An `event_descriptor` document: `uid`, stream `name`, `time`. -/
structure Descriptor where
  uid : Nat
  name : Nat
  time : Nat
deriving DecidableEq

/-- An `event` document: `uid`, owning `descriptor` uid, `time`, and the
datum ids embedded in its `data` mapping that need foreign-key
resolution (`refs`). -/
structure Event where
  uid : Nat
  descriptor : Nat
  time : Nat
  refs : List Nat
deriving DecidableEq

/-- The backing store for one run, as seen through the (external) cursor
provider: each list is the result of the corresponding sorted query. -/
structure RunDB where
  startUid : Nat
  descriptors : List Descriptor
  events : List Event
  stopUid : Option Nat
  datums : List Datum
  resources : List Resource
deriving DecidableEq

/-- A `(kind, document)` pair as emitted by `RunCatalog.read_partition`. -/
inductive Doc where
  | start (uid : Nat)
  | desc (d : Descriptor)
  | event (e : Event)
  | stop (uid : Nat)
deriving DecidableEq

/-- `[doc['uid'] for doc in self._descriptors]` in `RunCatalog`. -/
def descriptorUids (db : RunDB) : List Nat :=
  db.descriptors.map Descriptor.uid

/-- The events returned by `_get_event_cursor` for the run's descriptor
uids (the Mongo filter `{'descriptor': {'$in': descriptor_uids}}`),
before skip/limit. -/
def runEvents (db : RunDB) : List Event :=
  db.events.filter (fun e => (descriptorUids db).contains e.descriptor)

/-- `_get_event_count(descriptor_uids)`: size of the filtered cursor. -/
def eventCount (db : RunDB) : Nat :=
  (runEvents db).length

/-- `_get_datum(datum_id)`: `find_one({'datum_id': datum_id})`. -/
def findDatum (db : RunDB) (k : Nat) : Option Datum :=
  db.datums.find? (fun d => d.datum_id == k)

/-- `_get_resource(uid)`: `find_one({'uid': uid})`. -/
def findResource (db : RunDB) (u : Nat) : Option Resource :=
  db.resources.find? (fun r => r.uid == u)

/-- `_get_datum_cursor(resource_uid)`: `find({'resource': resource_uid})`. -/
def datumCursor (db : RunDB) (u : Nat) : List Datum :=
  db.datums.filter (fun d => d.resource == u)

/-- The resource/datum cache owned by the Filler instance. -/
structure FillerCache where
  datums : List Datum
  resources : List Resource
deriving DecidableEq

/-- A fresh Filler cache. -/
def emptyCache : FillerCache := ⟨[], []⟩

/-- Modelled from the spec: the external `event_model.Filler` (not under
`src/`) attempts resolution of an event from its in-memory cache and
raises `UnresolvableForeignKeyError{key: datum_id}` for a datum id not
in the cache.  `fillEvent` returns the first unresolvable key, or `none`
when every embedded datum id is cached (resolution succeeds). -/
def fillEvent (c : FillerCache) (ev : Event) : Option Nat :=
  ev.refs.find? (fun k => !(c.datums.any (fun d => d.datum_id == k)))

/-- The cache after the except-handler in `read_partition` has run
`filler('resource', resource)` and pre-fetched every datum of
`resource_uid` via `filler('datum', datum)`. -/
def prefetched (db : RunDB) (c : FillerCache) (resource_uid : Nat)
    (r : Resource) : FillerCache :=
  { datums := c.datums ++ datumCursor db resource_uid
    resources := c.resources ++ [r] }

/-- Errors surfaced by the partition reader.  `datumNotFound` /
`resourceNotFound` are the `ValueError`s raised by `_get_datum` /
`_get_resource`; `resourceIntegrity` is, modelled from the spec, the
fatal error when the same event is still unresolvable after the batch
prefetch (`ResourceIntegrityError`). -/
inductive ReadError where
  | datumNotFound (datum_id : Nat)
  | resourceNotFound (uid : Nat)
  | resourceIntegrity (key : Nat)
deriving DecidableEq

/-- The per-event body of the loop in `read_partition` (lines 417-431):
try `filler('event', event)`; on `UnresolvableForeignKeyError` fetch the
datum, its resource, register the resource, prefetch all datums of that
resource, and retry the fill exactly once. -/
def processEvent (db : RunDB) (c : FillerCache) (ev : Event) :
    Except ReadError FillerCache :=
  match fillEvent c ev with
  | none => .ok c
  | some k =>
    match findDatum db k with
    | none => .error (.datumNotFound k)
    | some d =>
      match findResource db d.resource with
      | none => .error (.resourceNotFound d.resource)
      | some r =>
        let c2 := prefetched db c d.resource r
        match fillEvent c2 ev with
        | none => .ok c2
        | some k2 => .error (.resourceIntegrity k2)

/-- The event loop of `read_partition`, threading the Filler cache. -/
def processEvents (db : RunDB) (c : FillerCache) :
    List Event → Except ReadError FillerCache
  | [] => .ok c
  | ev :: evs =>
    match processEvent db c ev with
    | .error e => .error e
    | .ok c2 => processEvents db c2 evs

/-- `self._offset = len(self._descriptors) + 1` in `RunCatalog._load`. -/
def offsetOf (db : RunDB) : Nat :=
  db.descriptors.length + 1

/-- `chain((('start', start_doc),), (('descriptor', d) for d in descriptors))`. -/
def headDocs (db : RunDB) : List Doc :=
  Doc.start db.startUid :: db.descriptors.map Doc.desc

/-- The leading slice of a partition:
`islice(chain(start, descriptors), start, stop)` when `start < offset`. -/
def partitionHead (db : RunDB) (P i : Nat) : List Doc :=
  if i * P < offsetOf db then
    ((headDocs db).drop (i * P)).take ((i + 1) * P - i * P)
  else []

/-- `skip = max(0, start - len(payload))` (truncated subtraction on Nat). -/
def partitionSkip (db : RunDB) (P i : Nat) : Nat :=
  i * P - (partitionHead db P i).length

/-- `limit = stop - start - len(payload)`. -/
def partitionLimit (db : RunDB) (P i : Nat) : Nat :=
  ((i + 1) * P - i * P) - (partitionHead db P i).length

/-- The events fetched by `_get_event_cursor(descriptor_uids, skip, limit)`. -/
def partitionEvents (db : RunDB) (P i : Nat) : List Event :=
  ((runEvents db).drop (partitionSkip db P i)).take (partitionLimit db P i)

/-- `RunCatalog._load`'s document count: `count = 1; count += len(uids);
count += event_count; count += (stop is not None)`. -/
def virtualCount (db : RunDB) : Nat :=
  1 + db.descriptors.length + eventCount db
    + (if db.stopUid.isSome then 1 else 0)

/-- `self.npartitions = int(numpy.ceil(count / PARTITION_SIZE))`,
as ceiling division on Nat. -/
def npartitions (db : RunDB) (P : Nat) : Nat :=
  (virtualCount db + P - 1) / P

/-- The payload of `read_partition(i)`: leading slice, fetched events,
and — inside the `limit > 0` branch only, on the last partition when a
stop document exists — the stop document. -/
def partitionPayload (db : RunDB) (P i : Nat) : List Doc :=
  let base := partitionHead db P i ++ (partitionEvents db P i).map Doc.event
  match db.stopUid with
  | some u => if i = npartitions db P - 1 then base ++ [Doc.stop u] else base
  | none => base

/-- `RunCatalog.read_partition(i)`, threading the Filler cache and
surfacing resolution errors. -/
def readPartition (db : RunDB) (P : Nat) (c : FillerCache) (i : Nat) :
    Except ReadError (List Doc × FillerCache) :=
  if 0 < partitionLimit db P i then
    match processEvents db c (partitionEvents db P i) with
    | .error e => .error e
    | .ok c2 => .ok (partitionPayload db P i, c2)
  else .ok (partitionHead db P i, c)

/-- The run's full virtual document sequence
`start, descriptor*, event*, stop?`. -/
def virtualSeq (db : RunDB) : List Doc :=
  headDocs db ++ (runEvents db).map Doc.event
    ++ (match db.stopUid with | some u => [Doc.stop u] | none => [])

/-- Payload of a successful partition read (empty on error). -/
def payloadOf (r : Except ReadError (List Doc × FillerCache)) : List Doc :=
  match r with
  | .ok (p, _) => p
  | .error _ => []

/-- `PARTITION_SIZE = 100` in `RunCatalog`. -/
def PARTITION_SIZE : Nat := 100

/-! ## The `Entries` dict-like container of `MongoMetadataStoreCatalog` -/

/-- A `run_start` document as used by `Entries.__getitem__`. -/
structure RunStart where
  uid : Nat
  scan_id : Int
  time : Nat
deriving DecidableEq

/-- The lookup key of `Entries.__getitem__` after the `int(name)`
conversion attempt: an integer, or a uid string. -/
inductive Key where
  | int (n : Int)
  | uid (u : Nat)
deriving DecidableEq

/-- Python exceptions escaping `Entries.__getitem__`: `KeyError(name)`
and the `ValueError` raised by tuple unpacking of an empty cursor. -/
inductive EntriesError where
  | keyError
  | valueError
deriving DecidableEq

/-- `Entries.__getitem__`.  `runs` is the query-matching `run_start`
collection sorted by time descending, as the cursor provider returns
it.  For a negative integer `n`, `.limit(n)` yields at most `|n|`
documents and `*_, doc = cursor` takes the last of them, raising
`ValueError` when the cursor is empty; for a non-negative integer,
`.limit(1)` over the `scan_id == n` matches is unpacked by
`doc, = cursor`; for a uid, `find_one` returning `None` raises
`KeyError`. -/
def getitem (runs : List RunStart) : Key → Except EntriesError RunStart
  | .int n =>
    if n < 0 then
      match (runs.take n.natAbs).getLast? with
      | none => .error .valueError
      | some doc => .ok doc
    else
      match (runs.filter (fun r => r.scan_id == n)).head? with
      | none => .error .valueError
      | some doc => .ok doc
  | .uid u =>
    match runs.find? (fun r => r.uid == u) with
    | none => .error .keyError
    | some doc => .ok doc

/-- `Entries.__contains__`: converts `KeyError` to `False`, a found
entry to `True`, and lets any other exception propagate. -/
def containsKey (runs : List RunStart) (k : Key) : Except EntriesError Bool :=
  match getitem runs k with
  | .ok _ => .ok true
  | .error .keyError => .ok false
  | .error e => .error e

/-! ## The event page codec `xarray_to_event_gen` -/

/-- One side of the dataset pair handed to `xarray_to_event_gen`: the
`time` coordinate plus the named variables aligned with it. -/
structure DataVars where
  time : List Int
  vars : List (String × List Int)
deriving DecidableEq

/-- An emitted event page. -/
structure EventPage where
  data : List (String × List Int)
  timestamps : List (String × List Int)
  time : List Int
  uid : List Int
  seq_num : List Int
  filled : List (String × List Int)
deriving DecidableEq

/-- `{name: variable.values for name, variable in
xarr.isel({'time': slice(a, b)}).items() if ':' not in name}`. -/
def isliceVars (vs : List (String × List Int)) (a b : Nat) :
    List (String × List Int) :=
  (vs.map (fun p => (p.1, (p.2.drop a).take (b - a)))).filter
    (fun p => !(p.1.contains ':'))

/-- `values = mapping.pop(key)`: the popped values and the remaining
mapping. -/
def popVar (key : String) (vs : List (String × List Int)) :
    List Int × List (String × List Int) :=
  (((vs.find? (fun p => p.1 == key)).map Prod.snd).getD [],
    vs.filter (fun p => p.1 != key))

/-- The event page built for the window starting at `start_idx`. -/
def pageAt (dx tx : DataVars) (page_size start_idx : Nat) : EventPage :=
  let stop_idx := start_idx + page_size
  let data0 := isliceVars dx.vars start_idx stop_idx
  let ts0 := isliceVars tx.vars start_idx stop_idx
  let seqPop := popVar "seq_num" data0
  let tsSeqPop := popVar "seq_num" ts0
  let uidPop := popVar "uid" seqPop.2
  let tsUidPop := popVar "uid" tsSeqPop.2
  { data := uidPop.2
    timestamps := tsUidPop.2
    time := (dx.time.drop start_idx).take (stop_idx - start_idx)
    uid := uidPop.1
    seq_num := seqPop.1
    filled := [] }

/-- `range(0, n, step)` for `step > 0`. -/
def rangeStep (n step : Nat) : List Nat :=
  (List.range ((n + step - 1) / step)).map (fun j => j * step)

/-- `xarray_to_event_gen(data_xarr, ts_xarr, page_size)`: one event page
per window of the time axis. -/
def xarray_to_event_gen (dx tx : DataVars) (page_size : Nat) :
    List EventPage :=
  (rangeStep dx.time.length page_size).map (pageAt dx tx page_size)

/-! ## Concrete runs used as witnesses and counterexamples -/

/-- Scenario A of the spec: start, one descriptor, 250 events, stop. -/
def scenarioA : RunDB :=
  { startUid := 1000
    descriptors := [⟨1, 0, 0⟩]
    events := (List.range 250).map (fun j => ⟨j, 1, j, []⟩)
    stopUid := some 2000
    datums := []
    resources := [] }

/-- A store with two datums on one resource, used for resolver claims. -/
def oneResourceDB : RunDB :=
  { startUid := 1
    descriptors := []
    events := []
    stopUid := none
    datums := [⟨5, 7⟩, ⟨6, 7⟩]
    resources := [⟨7⟩] }

/-- A store whose two datums live on two different resources. -/
def twoResourceDB : RunDB :=
  { startUid := 1
    descriptors := []
    events := []
    stopUid := none
    datums := [⟨5, 7⟩, ⟨6, 8⟩]
    resources := [⟨7⟩, ⟨8⟩] }

/-- An event referencing the single uncached datum id 5. -/
def evRef5 : Event := ⟨0, 1, 0, [5]⟩

/-- An event referencing the two uncached datum ids 5 and 6. -/
def evRef56 : Event := ⟨0, 1, 0, [5, 6]⟩

/-! ## Resolver lemmas -/

theorem fillEvent_eq_none_iff (c : FillerCache) (ev : Event) :
    fillEvent c ev = none ↔ ∀ k ∈ ev.refs, ∃ d ∈ c.datums, d.datum_id = k := by
  simp [fillEvent, List.find?_eq_none, List.any_eq_true]

theorem fillEvent_none_mono {c c2 : FillerCache} {ev : Event}
    (hsub : ∀ x ∈ c.datums, x ∈ c2.datums)
    (h : fillEvent c ev = none) : fillEvent c2 ev = none := by
  rw [fillEvent_eq_none_iff] at h ⊢
  intro k hk
  obtain ⟨d, hd, he⟩ := h k hk
  exact ⟨d, hsub d hd, he⟩

theorem processEvent_miss {db : RunDB} {c : FillerCache} {ev : Event}
    {k : Nat} {d : Datum} {r : Resource}
    (h1 : fillEvent c ev = some k)
    (h2 : findDatum db k = some d)
    (h3 : findResource db d.resource = some r) :
    (fillEvent (prefetched db c d.resource r) ev = none →
      processEvent db c ev = .ok (prefetched db c d.resource r))
    ∧ ∀ k2, fillEvent (prefetched db c d.resource r) ev = some k2 →
        processEvent db c ev = .error (.resourceIntegrity k2) := by
  constructor
  · intro hfill
    simp only [processEvent, h1, h2, h3, hfill]
  · intro k2 hfill
    simp only [processEvent, h1, h2, h3, hfill]

theorem prefetched_datums {db : RunDB} {c : FillerCache} {u : Nat}
    {r : Resource} :
    ∀ dd ∈ db.datums, dd.resource = u → dd ∈ (prefetched db c u r).datums := by
  intro dd hdd hres
  simp only [prefetched, List.mem_append]
  exact Or.inr (List.mem_filter.mpr ⟨hdd, by simp [hres]⟩)

theorem processEvent_ok_spec {db : RunDB} {c c2 : FillerCache} {ev : Event}
    (h : processEvent db c ev = .ok c2) :
    (∀ x ∈ c.datums, x ∈ c2.datums) ∧ fillEvent c2 ev = none := by
  cases hf : fillEvent c ev with
  | none =>
    simp only [processEvent, hf, Except.ok.injEq] at h
    subst h
    exact ⟨fun x hx => hx, hf⟩
  | some k =>
    cases hd : findDatum db k with
    | none => simp [processEvent, hf, hd] at h
    | some d =>
      cases hr : findResource db d.resource with
      | none => simp [processEvent, hf, hd, hr] at h
      | some r =>
        cases hf2 : fillEvent (prefetched db c d.resource r) ev with
        | none =>
          simp only [processEvent, hf, hd, hr, hf2, Except.ok.injEq] at h
          subst h
          refine ⟨fun x hx => ?_, hf2⟩
          simp only [prefetched, List.mem_append]
          exact Or.inl hx
        | some k2 => simp [processEvent, hf, hd, hr, hf2] at h

theorem processEvents_ok_spec {db : RunDB} {evs : List Event}
    {c c2 : FillerCache}
    (h : processEvents db c evs = .ok c2) :
    (∀ x ∈ c.datums, x ∈ c2.datums) ∧ ∀ ev ∈ evs, fillEvent c2 ev = none := by
  induction evs generalizing c with
  | nil =>
    simp only [processEvents, Except.ok.injEq] at h
    subst h
    exact ⟨fun x hx => hx, by simp⟩
  | cons ev evs ih =>
    unfold processEvents at h
    cases hp : processEvent db c ev with
    | error e => rw [hp] at h; simp at h
    | ok c1 =>
      rw [hp] at h
      obtain ⟨hsub1, hfill1⟩ := processEvent_ok_spec hp
      obtain ⟨hsub2, hfill2⟩ := ih h
      refine ⟨fun x hx => hsub2 x (hsub1 x hx), ?_⟩
      intro e he
      rcases List.mem_cons.mp he with rfl | he2
      · exact fillEvent_none_mono hsub2 hfill1
      · exact hfill2 e he2

theorem processEvents_stable {db : RunDB} {evs : List Event}
    {c : FillerCache}
    (h : ∀ ev ∈ evs, fillEvent c ev = none) :
    processEvents db c evs = .ok c := by
  induction evs with
  | nil => rfl
  | cons ev evs ih =>
    have hp : processEvent db c ev = .ok c := by
      unfold processEvent
      rw [h ev (by simp)]
    unfold processEvents
    rw [hp]
    exact ih (fun e he => h e (List.mem_cons_of_mem _ he))

/-- C3: on a cache miss the resolver fetches the owning datum by id, the
resource by the datum's `resource` uid, registers both in the cache,
eagerly caches every datum of that resource, and retries exactly once;
a key still unresolvable after the prefetch surfaces the fatal
`ResourceIntegrityError` with no further retry. -/
theorem C3_miss_prefetch_retry_once (db : RunDB) (c : FillerCache)
    (ev : Event) (k : Nat) (d : Datum) (r : Resource)
    (h1 : fillEvent c ev = some k)
    (h2 : findDatum db k = some d)
    (h3 : findResource db d.resource = some r) :
    (r ∈ (prefetched db c d.resource r).resources
      ∧ d ∈ (prefetched db c d.resource r).datums
      ∧ ∀ dd ∈ db.datums, dd.resource = d.resource →
          dd ∈ (prefetched db c d.resource r).datums)
    ∧ (fillEvent (prefetched db c d.resource r) ev = none →
        processEvent db c ev = .ok (prefetched db c d.resource r))
    ∧ ∀ k2, fillEvent (prefetched db c d.resource r) ev = some k2 →
        processEvent db c ev = .error (.resourceIntegrity k2) := by
  refine ⟨⟨?_, ?_, prefetched_datums⟩, (processEvent_miss h1 h2 h3).1,
    (processEvent_miss h1 h2 h3).2⟩
  · simp [prefetched]
  · exact prefetched_datums d (List.mem_of_find?_eq_some h2) rfl

/-- C3 witness: a concrete cache miss resolved after one prefetch. -/
theorem C3_miss_prefetch_retry_once_witness :
    processEvent oneResourceDB emptyCache evRef5
      = .ok (prefetched oneResourceDB emptyCache 7 ⟨7⟩) :=
  (C3_miss_prefetch_retry_once oneResourceDB emptyCache evRef5 5 ⟨5, 7⟩ ⟨7⟩
    (by decide) (by decide) (by decide)).2.1 (by decide)

/-- C4 counterexample: an event with a second distinct unresolvable key
on a different resource makes the partition reader surface a fatal
error — it does not get its own prefetch round, contrary to the claim. -/
theorem C4_second_resource_key_fatal :
    processEvent twoResourceDB emptyCache evRef56
      = .error (.resourceIntegrity 6) := by decide

/-- C4 amended: an event whose uncached datum ids all belong to the one
resource fetched for its first miss resolves after exactly one prefetch
round, with every datum of that resource cached; but a second distinct
unresolvable key (one on a different resource) surfaces the fatal error
instead of an independent prefetch round. -/
theorem C4_resolver_amended (db : RunDB) (c : FillerCache) (ev : Event)
    (k : Nat) (d : Datum) (r : Resource)
    (h1 : fillEvent c ev = some k)
    (h2 : findDatum db k = some d)
    (h3 : findResource db d.resource = some r) :
    ((∀ kk ∈ ev.refs, (∃ dd ∈ c.datums, dd.datum_id = kk)
        ∨ ∃ dd ∈ db.datums, dd.datum_id = kk ∧ dd.resource = d.resource) →
      processEvent db c ev = .ok (prefetched db c d.resource r)
        ∧ ∀ dd ∈ db.datums, dd.resource = d.resource →
            dd ∈ (prefetched db c d.resource r).datums)
    ∧ ∀ k2, fillEvent (prefetched db c d.resource r) ev = some k2 →
        processEvent db c ev = .error (.resourceIntegrity k2) := by
  refine ⟨fun hall => ⟨?_, prefetched_datums⟩, (processEvent_miss h1 h2 h3).2⟩
  refine (processEvent_miss h1 h2 h3).1 ?_
  rw [fillEvent_eq_none_iff]
  intro kk hkk
  rcases hall kk hkk with ⟨dd, hdd, he⟩ | ⟨dd, hdd, he, hres⟩
  · refine ⟨dd, ?_, he⟩
    simp only [prefetched, List.mem_append]
    exact Or.inl hdd
  · exact ⟨dd, prefetched_datums dd hdd hres, he⟩

/-- C4 witness: both keys of a two-reference event live on one resource;
one prefetch round resolves the event. -/
theorem C4_resolver_amended_witness :
    processEvent oneResourceDB emptyCache evRef56
      = .ok (prefetched oneResourceDB emptyCache 7 ⟨7⟩) :=
  ((C4_resolver_amended oneResourceDB emptyCache evRef56 5 ⟨5, 7⟩ ⟨7⟩
    (by decide) (by decide) (by decide)).1 (by decide)).1

/-- C6: re-reading a partition of an unchanged run — with whatever the
Filler cache has accumulated — returns the identical payload and leaves
the cache unchanged. -/
theorem C6_read_partition_idempotent (db : RunDB) (P : Nat)
    (c c2 : FillerCache) (i : Nat) (p : List Doc)
    (h : readPartition db P c i = .ok (p, c2)) :
    readPartition db P c2 i = .ok (p, c2) := by
  unfold readPartition at h ⊢
  by_cases hl : 0 < partitionLimit db P i
  · simp only [if_pos hl] at h ⊢
    cases hp : processEvents db c (partitionEvents db P i) with
    | error e => rw [hp] at h; simp at h
    | ok c1 =>
      rw [hp] at h
      simp only [Except.ok.injEq, Prod.mk.injEq] at h
      obtain ⟨hpay, hc⟩ := h
      subst hc
      rw [processEvents_stable (processEvents_ok_spec hp).2]
      rw [hpay]
  · simp only [if_neg hl] at h ⊢
    simp only [Except.ok.injEq, Prod.mk.injEq] at h
    obtain ⟨hpay, hc⟩ := h
    subst hc
    rw [hpay]

/-- C6 witness: a concrete partition read repeated with the cache the
first read produced. -/
theorem C6_read_partition_idempotent_witness :
    readPartition oneResourceDB 100 emptyCache 0
      = .ok ([Doc.start 1], emptyCache) :=
  C6_read_partition_idempotent oneResourceDB 100 emptyCache emptyCache 0
    [Doc.start 1] (by decide)

/-! ## Counting and partition arithmetic -/

theorem ceilDiv_eq_nat_ceil (c P : Nat) (hP : 0 < P) :
    (c + P - 1) / P = ⌈(c : ℚ) / (P : ℚ)⌉₊ := by
  have hP' : (0 : ℚ) < (P : ℚ) := by exact_mod_cast hP
  rcases Nat.eq_zero_or_pos c with hc | hc
  · subst hc
    rw [Nat.div_eq_of_lt (by omega)]
    simp
  · set q := (c - 1) / P with hq
    have ht : (c + P - 1) / P = q + 1 := by
      have h1 : c + P - 1 = (c - 1) + P := by omega
      rw [h1, Nat.add_div_right _ hP]
    have hqP : c - 1 < q * P + P := by
      have h2 : c - 1 < Nat.succ q * P :=
        (Nat.div_lt_iff_lt_mul hP).mp (Nat.lt_succ_self q)
      rw [Nat.succ_mul] at h2
      exact h2
    have hb : q * P ≤ c - 1 := Nat.div_mul_le_self _ _
    rw [ht]
    symm
    rw [Nat.ceil_eq_iff (Nat.succ_ne_zero q)]
    constructor
    · rw [lt_div_iff₀ hP']
      have h3 : (q + 1 - 1) * P < c := by
        have he : (q + 1 - 1) * P = q * P := by simp
        rw [he]
        omega
      exact_mod_cast h3
    · rw [div_le_iff₀ hP']
      have h4 : c ≤ (q + 1) * P := by
        have he : (q + 1) * P = q * P + P := by ring
        rw [he]
        omega
      exact_mod_cast h4

/-- C5: `_load` computes
`virtual_count = 1 + |descriptors| + |events| + (1 if stop else 0)` and
`npartitions = ceil(virtual_count / P)`. -/
theorem C5_virtual_count_and_partition_count (db : RunDB) (P : Nat)
    (hP : 0 < P) :
    virtualCount db = 1 + db.descriptors.length + (runEvents db).length
        + (if db.stopUid.isSome then 1 else 0)
      ∧ npartitions db P = ⌈(virtualCount db : ℚ) / (P : ℚ)⌉₊ :=
  ⟨rfl, by rw [npartitions]; exact ceilDiv_eq_nat_ceil _ _ hP⟩

/-- C5 witness: Scenario A has 253 virtual documents and 3 partitions. -/
theorem C5_virtual_count_and_partition_count_witness :
    npartitions scenarioA 100 = ⌈(virtualCount scenarioA : ℚ) / (100 : ℚ)⌉₊ :=
  (C5_virtual_count_and_partition_count scenarioA 100 (by decide)).2

theorem eventCount_le_virtualCount (db : RunDB) :
    eventCount db ≤ virtualCount db := by
  unfold virtualCount
  omega

theorem offsetOf_le_virtualCount (db : RunDB) :
    offsetOf db ≤ virtualCount db := by
  unfold offsetOf virtualCount
  omega

/-- C7: a partition whose window start lies at or past the virtual
document count reads back empty, with no error and no cache change. -/
theorem C7_out_of_range_partition_empty (db : RunDB) (P : Nat)
    (c : FillerCache) (i : Nat) (hP : 0 < P)
    (h : virtualCount db ≤ i * P) :
    readPartition db P c i = .ok ([], c) := by
  have hoff : offsetOf db ≤ i * P := le_trans (offsetOf_le_virtualCount db) h
  have hhead : partitionHead db P i = [] := by
    unfold partitionHead
    rw [if_neg (by omega)]
  have hlim : partitionLimit db P i = P := by
    unfold partitionLimit
    rw [hhead]
    simp [Nat.succ_mul]
  have hskip : partitionSkip db P i = i * P := by
    unfold partitionSkip
    rw [hhead]
    simp
  have hev : partitionEvents db P i = [] := by
    unfold partitionEvents
    rw [hskip, List.drop_eq_nil_of_le ?_, List.take_nil]
    exact le_trans (eventCount_le_virtualCount db) h
  have hc1 : 1 ≤ virtualCount db := by unfold virtualCount; omega
  have hstop : ∀ u, db.stopUid = some u → ¬ i = npartitions db P - 1 := by
    intro u _ hi
    have hnp1 : 1 ≤ npartitions db P := by
      unfold npartitions
      rw [Nat.one_le_div_iff hP]
      omega
    have hmul : npartitions db P * P ≤ virtualCount db + P - 1 :=
      Nat.div_mul_le_self _ _
    have hsub : (npartitions db P - 1) * P = npartitions db P * P - P := by
      cases hnp : npartitions db P with
      | zero => omega
      | succ n => simp [Nat.succ_mul]
    have hlt : (npartitions db P - 1) * P < virtualCount db := by omega
    rw [← hi] at hlt
    omega
  have hpay : partitionPayload db P i = [] := by
    unfold partitionPayload
    rw [hhead, hev]
    cases hdb : db.stopUid with
    | none => simp
    | some u => simp [hstop u hdb]
  unfold readPartition
  rw [if_pos (by rw [hlim]; exact hP), hev]
  simp only [processEvents]
  rw [hpay]

/-- C7 witness: Scenario A read at partition index 3 (window start 300 ≥
253) is empty. -/
theorem C7_out_of_range_partition_empty_witness :
    readPartition scenarioA 100 emptyCache 3 = .ok ([], emptyCache) :=
  C7_out_of_range_partition_empty scenarioA 100 emptyCache 3
    (by decide) (by decide)

/-! ## The partition-skip defect (C1, C2) -/

/-- C1 fails on the code: for Scenario A (start, one descriptor, 250
events, stop; P = 100) the concatenation of the three partitions has
251 documents while the virtual sequence has 253 — event 98 (and 99) is
emitted by no partition, because `read_partition` computes
`skip = max(0, start - len(payload))` instead of subtracting the
descriptor/start offset. -/
theorem C1_partition_concat_drops_events :
    (payloadOf (readPartition scenarioA 100 emptyCache 0)
      ++ payloadOf (readPartition scenarioA 100 emptyCache 1)
      ++ payloadOf (readPartition scenarioA 100 emptyCache 2)).length = 251
    ∧ (virtualSeq scenarioA).length = 253
    ∧ Doc.event ⟨98, 1, 98, []⟩ ∈ virtualSeq scenarioA
    ∧ Doc.event ⟨98, 1, 98, []⟩ ∉
        (payloadOf (readPartition scenarioA 100 emptyCache 0)
          ++ payloadOf (readPartition scenarioA 100 emptyCache 1)
          ++ payloadOf (readPartition scenarioA 100 emptyCache 2)) := by
  decide

/-- C2 fails on the code: at partition 1 of Scenario A the event cursor
is opened with `skip = 100`, not `max(0, start - offset) = 98`, and the
final partition carries 50 events plus the stop document (51 entries),
not the claimed 52 events plus stop. -/
theorem C2_skip_formula_mismatch :
    0 < partitionLimit scenarioA 100 1
    ∧ partitionSkip scenarioA 100 1 = 100
    ∧ offsetOf scenarioA = 2
    ∧ (payloadOf (readPartition scenarioA 100 emptyCache 2)).length = 51 := by
  decide

/-! ## Run lookup (C8, C10) -/

/-- C8: a uid lookup through `Entries.__getitem__` raises the
run-not-found error exactly when `find_one` locates no start document
for that uid, and returns the located document otherwise. -/
theorem C8_uid_lookup_key_error_iff (runs : List RunStart) (u : Nat) :
    (getitem runs (.uid u) = .error .keyError
      ↔ runs.find? (fun r => r.uid == u) = none)
    ∧ ∀ doc, runs.find? (fun r => r.uid == u) = some doc →
        getitem runs (.uid u) = .ok doc := by
  constructor
  · constructor
    · intro h
      cases hf : runs.find? (fun r => r.uid == u) with
      | none => rfl
      | some doc => simp [getitem, hf] at h
    · intro hf
      simp [getitem, hf]
  · intro doc hf
    simp [getitem, hf]

/-- C8 witness: looking up a uid in an empty store raises the error. -/
theorem C8_uid_lookup_key_error_iff_witness :
    getitem [] (Key.uid 3) = .error .keyError :=
  (C8_uid_lookup_key_error_iff [] 3).1.mpr rfl

/-- A store with a single matching run, for C10. -/
def c10run : RunStart := ⟨1, 1, 0⟩

/-- C10 counterexample: with one matching run and index `-2` (fewer
matches than the magnitude but not zero), the lookup succeeds — it does
not raise `ValueError` as the claim states. -/
theorem C10_negative_index_partial_match :
    getitem [c10run] (.int (-2)) = .ok c10run := by decide

/-- C10 amended: indexing with a negative integer when zero runs match
the query raises `ValueError` from tuple unpacking rather than
`KeyError`, and `__contains__` — which converts only `KeyError` to
`False` — propagates that `ValueError` instead of returning `False`. -/
theorem C10_zero_match_value_error (n : Int) (hn : n < 0) :
    getitem [] (.int n) = .error .valueError
    ∧ containsKey [] (.int n) = .error .valueError := by
  have hg : getitem ([] : List RunStart) (.int n) = .error .valueError := by
    simp [getitem, hn]
  exact ⟨hg, by simp [containsKey, hg]⟩

/-- C10 witness: index `-1` on an empty match set. -/
theorem C10_zero_match_value_error_witness :
    getitem [] (.int (-1)) = .error .valueError
    ∧ containsKey [] (.int (-1)) = .error .valueError :=
  C10_zero_match_value_error (-1) (by decide)

/-! ## Event page codec (C9) -/

/-- Default page for total indexing in statements. -/
def dummyPage : EventPage := ⟨[], [], [], [], [], []⟩

theorem pageAt_time (dx tx : DataVars) (ps s : Nat) :
    (pageAt dx tx ps s).time = (dx.time.drop s).take ps := by
  simp [pageAt, Nat.add_sub_cancel_left]

theorem pageAt_filled (dx tx : DataVars) (ps s : Nat) :
    (pageAt dx tx ps s).filled = [] := rfl

theorem rangeStep_chunks_join {α : Type} (ps : Nat) (hps : 0 < ps) :
    ∀ (k : Nat) (t : List α), (t.length + ps - 1) / ps = k →
      ((List.range k).map (fun j => (t.drop (j * ps)).take ps)).flatten = t := by
  intro k
  induction k with
  | zero =>
    intro t h
    have h0 : t.length = 0 := by
      have h1 := (Nat.div_eq_zero_iff hps).mp h
      omega
    rw [List.length_eq_zero] at h0
    subst h0
    simp
  | succ k ih =>
    intro t h
    have htail : ((t.drop ps).length + ps - 1) / ps = k := by
      rw [List.length_drop]
      rcases Nat.le_total ps t.length with hle | hle
      · have h1 : t.length - ps + ps - 1 = t.length - 1 := by omega
        rw [h1]
        have h2 : t.length + ps - 1 = (t.length - 1) + ps := by
          have hn : 1 ≤ t.length := le_trans hps hle
          omega
        rw [h2, Nat.add_div_right _ hps] at h
        omega
      · have h1 : t.length - ps = 0 := by omega
        rw [h1]
        have h2 : (0 + ps - 1) / ps = 0 := Nat.div_eq_of_lt (by omega)
        rw [h2]
        have h4 : (t.length + ps - 1) / ps < 2 := by
          rw [Nat.div_lt_iff_lt_mul hps]
          omega
        omega
    rw [List.range_succ_eq_map, List.map_cons, List.map_map]
    have hc : ((fun j => (t.drop (j * ps)).take ps) ∘ Nat.succ)
        = fun j => ((t.drop ps).drop (j * ps)).take ps := by
      funext j
      simp only [Function.comp_apply]
      rw [Nat.succ_mul, List.drop_drop, Nat.add_comm]
    rw [hc]
    have hjoin := ih (t.drop ps) htail
    simp only [List.flatten_cons]
    rw [hjoin, Nat.zero_mul, List.drop_zero, List.take_append_drop]

/-- C9: for every dataset pair and positive `page_size`, the pages of
`xarray_to_event_gen` carve the time axis into contiguous windows —
concatenating them restores the axis, every non-final page has exactly
`page_size` entries, no page exceeds `page_size` — and every emitted
page has an empty `filled` mapping. -/
theorem C9_event_pages (dx tx : DataVars) (ps : Nat) (hps : 0 < ps) :
    ((xarray_to_event_gen dx tx ps).map (fun p => p.time)).flatten = dx.time
    ∧ (∀ j, j + 1 < (xarray_to_event_gen dx tx ps).length →
        ((xarray_to_event_gen dx tx ps).getD j dummyPage).time.length = ps)
    ∧ (∀ p ∈ xarray_to_event_gen dx tx ps, p.time.length ≤ ps)
    ∧ (∀ p ∈ xarray_to_event_gen dx tx ps, p.filled = []) := by
  have hlen : (xarray_to_event_gen dx tx ps).length
      = (dx.time.length + ps - 1) / ps := by
    simp [xarray_to_event_gen, rangeStep]
  refine ⟨?_, ?_, ?_, ?_⟩
  · rw [xarray_to_event_gen, rangeStep, List.map_map, List.map_map]
    have hc : (((fun p => EventPage.time p) ∘ pageAt dx tx ps) ∘ fun j => j * ps)
        = fun j => (dx.time.drop (j * ps)).take ps := by
      funext j
      simp only [Function.comp_apply]
      exact pageAt_time dx tx ps (j * ps)
    rw [hc]
    exact rangeStep_chunks_join ps hps _ dx.time rfl
  · intro j hj
    rw [hlen] at hj
    have hj2 : j < (xarray_to_event_gen dx tx ps).length := by
      rw [hlen]; omega
    have hx : (xarray_to_event_gen dx tx ps).getD j dummyPage
        = pageAt dx tx ps (j * ps) := by
      rw [List.getD_eq_getElem _ _ hj2]
      simp [xarray_to_event_gen, rangeStep]
    rw [hx, pageAt_time, List.length_take, List.length_drop]
    have hK : j + 2 ≤ (dx.time.length + ps - 1) / ps := by omega
    have hK2 : (j + 2) * ps ≤ dx.time.length + ps - 1 :=
      (Nat.le_div_iff_mul_le hps).mp hK
    have he : (j + 2) * ps = j * ps + 2 * ps := by ring
    omega
  · intro p hp
    obtain ⟨s, _, rfl⟩ := List.mem_map.mp hp
    rw [pageAt_time, List.length_take]
    omega
  · intro p hp
    obtain ⟨s, _, rfl⟩ := List.mem_map.mp hp
    exact pageAt_filled dx tx ps s

/-- A five-sample dataset used as the C9 witness. -/
def pagesDemo : DataVars :=
  ⟨[10, 20, 30, 40, 50], [("seq_num", [1, 2, 3, 4, 5]), ("uid", [9, 9, 9, 9, 9])]⟩

/-- C9 witness: pages of size 2 over five samples rebuild the axis. -/
theorem C9_event_pages_witness :
    ((xarray_to_event_gen pagesDemo pagesDemo 2).map (fun p => p.time)).flatten
      = pagesDemo.time :=
  (C9_event_pages pagesDemo pagesDemo 2 (by decide)).1

end Databroker
